import Mathlib

/-!
# Moderated session subsystem: shallow embedding and verification

This file embeds the moderated-session policy evaluator
(`lib/auth/session_access.go`), the session tracker list maintenance
(`services/local` tracker), and the live kubernetes session orchestrator
(`lib/kube/proxy` session) in Lean 4, and proves or refutes the spec's
claims about them.

Conventions:
* Go `(T, error)` returns become `Except Err T`.
* Go strings stay `String`; enumeration-like string constants (session
  kinds, role versions, modes, on-leave values) keep their string form so
  that the `switch`/comparison structure of the source is preserved.
* Go maps keyed by UUID become lists with `Nat` ids; claims proved here do
  not depend on iteration order.
-/

deriving instance DecidableEq for Except

/-- Error kinds distinguished by the embedded code (mirrors the `trace`
error taxonomy actually used in the modelled functions). -/
inductive Err where
  | accessDenied (msg : String)
  | badParameter (msg : String)
  | notFound (msg : String)
  | trackerFailed
  | ioFailed
deriving DecidableEq, Repr

/-- Session tracker / orchestrator state enumeration
(`types.SessionState_SessionState{Pending,Running,Terminated}`). -/
inductive SessState where
  | pending
  | running
  | terminated
deriving DecidableEq, Repr

/-- `types.SSHSessionKind` ("ssh"). -/
def sshKind : String := "ssh"

/-- `types.KubernetesSessionKind` ("k8s"). -/
def kubernetesKind : String := "k8s"

/-- Modelled from the spec: glob matching (4.B-glob) of
`utils.GlobToRegexp` + `regexp.MatchString`, whose source is not under
`src/`: `*` matches any run (including empty), `?` matches one character,
everything else is literal, matching is anchored full-string, and no
pattern is an error. -/
def globMatch : List Char → List Char → Bool
  | [], s => s.isEmpty
  | '*' :: ps, s => s.tails.any (fun t => globMatch ps t)
  | '?' :: ps, s =>
    match s with
    | [] => false
    | _ :: s => globMatch ps s
  | p :: ps, s =>
    match s with
    | [] => false
    | c :: s => p == c && globMatch ps s

/-- Glob matching on strings: `globMatchStr pattern subject`. -/
def globMatchStr (pattern subject : String) : Bool :=
  globMatch pattern.toList subject.toList

/-- Modelled from the spec: the filter expression language (4.A) of
`services.NewWhereParser` (`lib/services`, not under `src/`): the single
function `contains(list_expr, string_literal)`, boolean composition, and
literals, over dotted identifiers. The identifier argument of `contains`
is kept as its dotted path. -/
inductive FilterExpr where
  | containsIdent (path : List String) (val : String)
  | litB (b : Bool)
  | andE (a b : FilterExpr)
  | orE (a b : FilterExpr)
  | notE (a : FilterExpr)
deriving DecidableEq, Repr

/-- `types.SessionRequirePolicy`. -/
structure SessionRequirePolicy where
  filter : FilterExpr
  kinds : List String
  count : Int
  onLeave : String
deriving DecidableEq, Repr

/-- `types.SessionJoinPolicy`. -/
structure SessionJoinPolicy where
  roles : List String
  kinds : List String
  modes : List String
deriving DecidableEq, Repr

/-- A role, as consumed by the evaluator: name, version tag, require
policies and join policies (the slice of `types.Role` the evaluator
reads). -/
structure Role where
  name : String
  version : String
  requirePolicies : List SessionRequirePolicy
  joinPolicies : List SessionJoinPolicy
deriving DecidableEq, Repr

/-- `SessionAccessContext` from `session_access.go`. -/
structure SessionAccessContext where
  Username : String
  Roles : List Role
deriving DecidableEq, Repr

/-- Values produced by identifier resolution in `GetIdentifier`. -/
inductive IdentValue where
  | str (s : String)
  | strList (l : List String)
deriving DecidableEq, Repr

/-- `SessionAccessContext.GetIdentifier` (session_access.go:99-117):
`participant.name` resolves to the username, `participant.roles` to the
role names, anything else is a not-found error. -/
def GetIdentifier (ctx : SessionAccessContext) (fields : List String) : Except Err IdentValue :=
  if fields.head? = some "participant" ∧ (fields.length = 2 ∨ fields.length = 3) then
    match fields.get? 1 with
    | some "name" => .ok (.str ctx.Username)
    | some "roles" => .ok (.strList (ctx.Roles.map Role.name))
    | _ => .error (.notFound (String.intercalate "." fields ++ " is not defined"))
  else
    .error (.notFound (String.intercalate "." fields ++ " is not defined"))

/-- Modelled from the spec: parsing/evaluating a filter against a
participant context. In the source, `parser.Parse(require.Filter)`
resolves identifiers through `GetIdentifier`; the two known participant
paths resolve for every context, and any other path fails with not-found
for every context, so whether parsing errors depends only on the filter,
never on the participant. We therefore split the source's per-context
parse into a context-independent check producing a total evaluator. -/
def parseFilter : FilterExpr → Except Err (SessionAccessContext → Bool)
  | .containsIdent path v =>
    if path = ["participant", "roles"] then
      .ok (fun ctx => (ctx.Roles.map Role.name).contains v)
    else if path = ["participant", "name"] then
      .error (.badParameter "contains expects a list expression")
    else
      .error (.notFound (String.intercalate "." path ++ " is not defined"))
  | .litB b => .ok (fun _ => b)
  | .andE a b => do
    let fa ← parseFilter a
    let fb ← parseFilter b
    .ok (fun ctx => fa ctx && fb ctx)
  | .orE a b => do
    let fa ← parseFilter a
    let fb ← parseFilter b
    .ok (fun ctx => fa ctx || fb ctx)
  | .notE a => do
    let fa ← parseFilter a
    .ok (fun ctx => !(fa ctx))

/-- `SessionAccessEvaluator` (session_access.go:38-42). -/
structure SessionAccessEvaluator where
  kind : String
  requires : List SessionRequirePolicy
  roles : List Role
deriving DecidableEq, Repr

/-- `getRequirePolicies` (session_access.go:56-69): flat concatenation of
every role's require policies (skipping empty contributions is the
identity on the concatenation). -/
def getRequirePolicies (participant : List Role) : List SessionRequirePolicy :=
  participant.flatMap Role.requirePolicies

/-- `NewSessionAccessEvaluator` (session_access.go:46-54). -/
def NewSessionAccessEvaluator (roles : List Role) (kind : String) : SessionAccessEvaluator :=
  { kind := kind, requires := getRequirePolicies roles, roles := roles }

/-- `getAllowPolicies` (session_access.go:71-79). -/
def getAllowPolicies (participant : SessionAccessContext) : List SessionJoinPolicy :=
  participant.Roles.flatMap Role.joinPolicies

/-- `contains` (session_access.go:81-89): string-equality membership of
the session kind in a kinds list. -/
def containsKind (s : List String) (e : String) : Bool :=
  s.contains e

/-- `SessionAccessEvaluator.matchesKind` (session_access.go:166-172). -/
def matchesKind (e : SessionAccessEvaluator) (allow : List String) : Bool :=
  containsKind allow e.kind || containsKind allow "*"

/-- `SessionAccessEvaluator.matchesJoin` (session_access.go:146-164).
NOTE: the source compiles the HOST ROLE NAME as the glob
(`utils.GlobToRegexp(requireRole.GetName())`) and matches it against the
allow-policy entry (`regexp.MatchString(expr, allowRole)`), i.e. pattern
and subject are the host role name and the `allow.Roles` entry,
in that order. -/
def matchesJoin (e : SessionAccessEvaluator) (allow : SessionJoinPolicy) : Bool :=
  matchesKind e allow.kinds &&
    e.roles.any (fun requireRole =>
      allow.roles.any (fun allowRole => globMatchStr requireRole.name allowRole))

/-- The spec's wording of the join role-match (4.B item 3): at least one
pattern in `A.roles` glob-matches the name of at least one host role.
Kept separate from `matchesJoin` to compare the two. -/
def specMatchesJoinRoles (e : SessionAccessEvaluator) (allow : SessionJoinPolicy) : Bool :=
  matchesKind e allow.kinds &&
    allow.roles.any (fun pat => e.roles.any (fun r => globMatchStr pat r.name))

/-- `SessionAccessEvaluator.matchesPredicate` (session_access.go:123-144):
kind gates first, then the filter is parsed per participant context and
evaluated. -/
def matchesPredicate (e : SessionAccessEvaluator) (ctx : SessionAccessContext)
    (require : SessionRequirePolicy) (allow : SessionJoinPolicy) : Except Err Bool :=
  if !(matchesKind e require.kinds) || !(matchesKind e allow.kinds) then
    .ok false
  else do
    let fn ← parseFilter require.filter
    .ok (fn ctx)

/-- `supportsSessionAccessControls` (session_access.go:269-284). Every
arm of the `switch` in the loop body returns, so only the FIRST host role
is ever inspected for `ssh`; for every other kind (and for an empty role
set) the final `return false, nil` is taken. -/
def supportsSessionAccessControls (e : SessionAccessEvaluator) : Except Err Bool :=
  if e.kind = sshKind then
    match e.roles with
    | [] => .ok false
    | r :: _ =>
      if r.version = "v1" ∨ r.version = "v2" ∨ r.version = "v3" ∨ r.version = "v4" then
        .ok false
      else if r.version = "v5" then
        .ok true
      else
        .error (.badParameter ("unsupported role version: " ++ r.version))
  else
    .ok false

/-- `PolicyOptions` (session_access.go:212-214). -/
structure PolicyOptions where
  TerminateOnLeave : Bool
deriving DecidableEq, Repr

/-- `types.OnSessionLeaveTerminate` / `...Pause` translation inside
`FulfilledFor` (session_access.go:247-254). -/
def onLeaveOptions (r : SessionRequirePolicy) : Except Err PolicyOptions :=
  if r.onLeave = "terminate" then .ok ⟨true⟩
  else if r.onLeave = "pause" then .ok ⟨false⟩
  else .error (.badParameter ("unsupported on_leave policy: " ++ r.onLeave))

/-- Inner allow-policy loop of `FulfilledFor` (session_access.go:232-242):
first allow policy with a true predicate and a join match counts; a
predicate error aborts. -/
def matchesParticipantGo (e : SessionAccessEvaluator) (require : SessionRequirePolicy)
    (p : SessionAccessContext) : List SessionJoinPolicy → Except Err Bool
  | [] => .ok false
  | allow :: rest => do
    let m ← matchesPredicate e p require allow
    if m && matchesJoin e allow then .ok true
    else matchesParticipantGo e require p rest

/-- Whether a participant counts toward a require policy: the inner loop
over the participant's allow policies. -/
def matchesParticipant (e : SessionAccessEvaluator) (require : SessionRequirePolicy)
    (p : SessionAccessContext) : Except Err Bool :=
  matchesParticipantGo e require p (getAllowPolicies p)

/-- Per-require-policy participant scan of `FulfilledFor`
(session_access.go:227-258): `left` starts at the policy count, each
counting participant decrements it, and the `left <= 0` check runs after
every participant (matching or not). -/
def scanParticipants (e : SessionAccessEvaluator) (require : SessionRequirePolicy) :
    Int → List SessionAccessContext → Except Err (Option PolicyOptions)
  | _, [] => .ok none
  | left, p :: ps => do
    let m ← matchesParticipant e require p
    let left := if m then left - 1 else left
    if left ≤ 0 then do
      let opts ← onLeaveOptions require
      .ok (some opts)
    else
      scanParticipants e require left ps

/-- Outer require-policy loop of `FulfilledFor`: the first fulfilled
policy wins. -/
def evalRequires (e : SessionAccessEvaluator) (participants : List SessionAccessContext) :
    List SessionRequirePolicy → Except Err (Bool × PolicyOptions)
  | [] => .ok (false, ⟨false⟩)
  | r :: rs => do
    match ← scanParticipants e r r.count participants with
    | some opts => .ok (true, opts)
    | none => evalRequires e participants rs

/-- `SessionAccessEvaluator.FulfilledFor` (session_access.go:217-262). -/
def FulfilledFor (e : SessionAccessEvaluator) (participants : List SessionAccessContext) :
    Except Err (Bool × PolicyOptions) :=
  match supportsSessionAccessControls e with
  | .error err => .error err
  | .ok supported =>
    if e.requires.isEmpty || !supported then .ok (true, ⟨false⟩)
    else evalRequires e participants e.requires

/-- `preAccessControlsModes` (session_access.go:286-293). -/
def preAccessControlsModes (kind : String) : List String :=
  if kind = sshKind then ["peer"] else []

/-- Mode-accumulation loop of `CanJoin` (session_access.go:186-197):
modes of matching allow policies, deduplicated, first-seen order. -/
def collectModes (e : SessionAccessEvaluator) (policies : List SessionJoinPolicy) : List String :=
  policies.foldl (fun acc allow =>
    if matchesJoin e allow then
      allow.modes.foldl (fun acc m => if acc.contains m then acc else acc ++ [m]) acc
    else acc) []

/-- `SessionAccessEvaluator.CanJoin` (session_access.go:176-200). -/
def CanJoin (e : SessionAccessEvaluator) (user : SessionAccessContext) :
    Except Err (List String) :=
  match supportsSessionAccessControls e with
  | .error err => .error err
  | .ok supported =>
    if !supported then .ok (preAccessControlsModes e.kind)
    else .ok (collectModes e (getAllowPolicies user))

/-! ## Session tracker list maintenance (`removeSessionFromList`) -/

/-- The tracker fields read during list maintenance
(`session.GetCreated()`, `session.GetExpires()`, `session.GetState()`);
times are abstract instants on a discrete clock. -/
structure TrackerRec where
  created : Nat
  expires : Nat
  state : SessState
deriving DecidableEq, Repr

/-- `gcDelay` (5 minutes); the unit of the abstract clock is irrelevant. -/
def gcDelay : Nat := 300

/-- Record lookup (`loadSession`): the backend keyed by session id. -/
def lookupRec (recs : List (String × TrackerRec)) (id : String) : Option TrackerRec :=
  (recs.find? (fun kv => kv.1 = id)).map Prod.snd

/-- The per-entry garbage condition of `removeSessionFromList`
(part_002:279): terminated and created + gcDelay before now. -/
def trackerDoGC (r : TrackerRec) (now : Nat) : Bool :=
  decide (r.created + gcDelay < now) && decide (r.state = .terminated)

/-- The staleness condition (part_002:280): expires before now. -/
def trackerIsStale (r : TrackerRec) (now : Nat) : Bool :=
  decide (r.expires < now)

/-- The scan loop of `removeSessionFromList` (part_002:272-297): each
entry's record is loaded (a load failure aborts); the FIRST entry that is
the requested id, garbage, or stale is removed via
`append(list[:i], list[i+1:]...)` and the loop `break`s; if no entry
matched, the whole call fails with not-found. (The `if doGC` block after
the `break` is unreachable and is omitted.) -/
def removeSessionLoop (recs : List (String × TrackerRec)) (now : Nat) (sessionID : String) :
    List String → Except Err (List String)
  | [] => .error (.notFound ("session " ++ sessionID ++ " not found in list"))
  | id :: rest =>
    match lookupRec recs id with
    | none => .error (.notFound ("key " ++ id ++ " is not found"))
    | some r =>
      if id = sessionID ∨ trackerDoGC r now ∨ trackerIsStale r now then .ok rest
      else (removeSessionLoop recs now sessionID rest).map (fun l => id :: l)

/-- `removeSessionFromList` (part_002:260-312), with the backend
get/unmarshal/CAS steps abstracted to the pure list transformation the
successful CAS writes. -/
def removeSessionFromList (recs : List (String × TrackerRec)) (now : Nat)
    (sessionID : String) (list : List String) : Except Err (List String) :=
  removeSessionLoop recs now sessionID list

/-! ## Live session orchestrator (kube `session`, part_003) -/

/-- A party (part_003:214-221), with its roles already resolved by the
role directory (`getRolesByName`). -/
structure PartyM where
  id : Nat
  user : String
  mode : String
  roles : List Role
deriving DecidableEq, Repr

/-- Audit event type constants (`events.SessionJoinEvent` = "session.join",
`events.SessionLeaveEvent` = "session.leave", ...). -/
inductive EventType where
  | sessionJoin
  | sessionLeave
deriving DecidableEq, Repr

/-- An emitted audit event: `payloadShape` is which `apievents` struct
was constructed; `eventType` is the string constant stored in its
`Metadata.Type` field (the two agree in a well-formed event). -/
structure AuditEvent where
  payloadShape : EventType
  eventType : EventType
  sessionId : Nat
  user : String
deriving DecidableEq, Repr

/-- Observable side effects of an orchestrator operation, in program
order. -/
inductive SessAction where
  | broadcast (msg : String)
  | emit (ev : AuditEvent)
  | trackerAdd (pid : Nat)
  | trackerRemove (pid : Nat)
  | partyClose (pid : Nat)
  | scheduleClose
  | publishState (st : SessState)
deriving DecidableEq, Repr

/-- The orchestrator's session state (part_003:247-305): the fields the
claims are about. `readers`, `writers`, `resizeQueues` model the
registrations in the TermManager and the multiResizeQueue under the
party's string id. -/
structure SessionM where
  sid : Nat
  initiatorId : Nat
  initiatorUser : String
  hostRoles : List Role
  parties : List PartyM
  partiesHistorical : List PartyM
  readers : List Nat
  writers : List Nat
  resizeQueues : List Nat
  state : SessState
  started : Bool
  closedOnce : Bool
  tty : Bool
deriving DecidableEq, Repr

/-- `newSession` (part_003:308-356): empty rosters, state Pending, the
access evaluator built from the initiator's roles with kind
`types.KubernetesSessionKind`. -/
def initSession (sid : Nat) (initiator : PartyM) (hostRoles : List Role) (tty : Bool) :
    SessionM :=
  { sid := sid
    initiatorId := initiator.id
    initiatorUser := initiator.user
    hostRoles := hostRoles
    parties := []
    partiesHistorical := []
    readers := []
    writers := []
    resizeQueues := []
    state := .pending
    started := false
    closedOnce := false
    tty := tty }

/-- The evaluator snapshot held by a session: `newSession` always passes
`types.KubernetesSessionKind` (part_003:317). -/
def sessionEvaluator (s : SessionM) : SessionAccessEvaluator :=
  NewSessionAccessEvaluator s.hostRoles kubernetesKind

/-- Participant-context construction inside `canStart` (part_003:1019-1032):
parties whose username equals the initiator's are skipped, and each
remaining party contributes a `SessionAccessContext` with ONLY `Roles`
populated (the `Username` field is left at its zero value ""). -/
def canStartContexts (initiatorUser : String) (parties : List PartyM) :
    List SessionAccessContext :=
  (parties.filter (fun q => q.user ≠ initiatorUser)).map
    (fun q => { Username := "", Roles := q.roles })

/-- `session.canStart` (part_003:1017-1036). -/
def canStartM (s : SessionM) : Except Err (Bool × PolicyOptions) :=
  FulfilledFor (sessionEvaluator s) (canStartContexts s.initiatorUser s.parties)

/-- External failures a join can hit after the access check: the tracker
`AddParticipant` call (part_003:820) and the recent-history write to the
joiner's stdout (part_003:864). Neither produces an AccessDenied error. -/
structure JoinFaults where
  trackerFail : Bool
  historyWriteFail : Bool
deriving DecidableEq, Repr

/-- Registration phase of `session.join` (part_003:816-917): roster and
stream registration, then the start check. State is only changed
Pending → Running; the launch call is asynchronous and is modelled as a
separate operation. -/
def joinRegister (s : SessionM) (p : PartyM) (f : JoinFaults) :
    Except Err Unit × SessionM :=
  let s1 := { s with parties := s.parties ++ [p],
                     partiesHistorical := s.partiesHistorical ++ [p] }
  if f.trackerFail then (.error .trackerFailed, s1)
  else
    -- SessionJoin event and join broadcast happen here (not tracked for these claims)
    let s2 := if s1.tty then { s1 with resizeQueues := s1.resizeQueues ++ [p.id] } else s1
    let s3 := if s2.tty && p.user == s2.initiatorUser then
                { s2 with readers := s2.readers ++ [p.id] } else s2
    if f.historyWriteFail then (.error .ioFailed, s3)
    else
      let s4 := { s3 with writers := s3.writers ++ [p.id] }
      if s4.state ≠ .pending then (.ok (), s4)
      else
        match canStartM s4 with
        | .error e => (.error e, s4)
        | .ok (canStart, _) =>
          if s4.started && canStart then (.ok (), { s4 with state := .running })
          else if canStart then (.ok (), s4)
          else if !s4.tty then
            (.error (.accessDenied "insufficient permissions to launch non-interactive session"), s4)
          else (.ok (), s4)

/-- `session.join` (part_003:790-918): parties with a username different
from the initiator's go through `CanJoin`; a requested mode outside the
returned set is AccessDenied before anything is registered. -/
def joinSession (s : SessionM) (p : PartyM) (f : JoinFaults) :
    Except Err Unit × SessionM :=
  if p.user = s.initiatorUser then joinRegister s p f
  else
    match CanJoin (sessionEvaluator s) { Username := p.user, Roles := p.roles } with
    | .error e => (.error e, s)
    | .ok modes =>
      if modes.contains p.mode then joinRegister s p f
      else (.error (.accessDenied "insufficient permissions to join session"), s)

/-- `session.leave` (part_003:921-1005): no-op when terminated or the
party is unknown; otherwise remove from the live roster, deregister
resize/reader/writer, broadcast, emit the leave audit event — whose
`Metadata.Type`/`Code` the source fills with the SessionJoin constants
(part_003:941-942) — update the tracker, close the party, then either
schedule `Close` (roster empty or initiator left) or re-check access. -/
def leaveSession (s : SessionM) (pid : Nat) :
    Except Err Unit × SessionM × List SessAction :=
  if s.state = .terminated then (.ok (), s, [])
  else
    match s.parties.find? (fun q => q.id = pid) with
    | none => (.ok (), s, [])
    | some party =>
      let s1 := { s with parties := s.parties.filter (fun q => q.id ≠ pid),
                         resizeQueues := s.resizeQueues.filter (fun i => i ≠ pid),
                         readers := s.readers.filter (fun i => i ≠ pid),
                         writers := s.writers.filter (fun i => i ≠ pid) }
      let leaveEvent : AuditEvent :=
        { payloadShape := .sessionLeave
          eventType := .sessionJoin
          sessionId := s.sid
          user := party.user }
      let acts := [SessAction.broadcast ("User " ++ party.user ++ " left the session."),
                   SessAction.emit leaveEvent,
                   SessAction.trackerRemove pid,
                   SessAction.partyClose pid]
      if s1.parties.isEmpty || pid == s.initiatorId then
        (.ok (), s1, acts ++ [SessAction.scheduleClose])
      else
        match canStartM s1 with
        | .error e => (.error e, s1, acts)
        | .ok (canStart, options) =>
          if !canStart then
            if options.TerminateOnLeave then (.ok (), s1, acts ++ [SessAction.scheduleClose])
            else (.ok (), { s1 with state := .pending },
                  acts ++ [SessAction.publishState .pending])
          else (.ok (), s1, acts)

/-- The state-relevant body of `session.launch` (part_003:417-787): marks
the session started; it never assigns `s.state`. Its deferred `Close` is
the separate close operation. -/
def launchBody (s : SessionM) : SessionM :=
  { s with started := true }

/-- `session.Close` (part_003:1038-1069): the body is guarded by
`closeOnce` and runs at most once; it sets the state to Terminated. -/
def closeSession (s : SessionM) : SessionM :=
  if s.closedOnce then s
  else { s with closedOnce := true, state := .terminated }

/-- The orchestrator operations that touch a session after creation. -/
inductive Op where
  | opJoin (p : PartyM) (f : JoinFaults)
  | opLeave (pid : Nat)
  | opLaunch
  | opClose
deriving Repr

/-- State effect of one operation. -/
def applyOp (s : SessionM) : Op → SessionM
  | .opJoin p f => (joinSession s p f).2
  | .opLeave pid => (leaveSession s pid).2.1
  | .opLaunch => launchBody s
  | .opClose => closeSession s

/-- Session states reachable from creation by any sequence of
operations. -/
inductive ReachableSession : SessionM → Prop where
  | init (sid : Nat) (p : PartyM) (hostRoles : List Role) (tty : Bool) :
      ReachableSession (initSession sid p hostRoles tty)
  | step {s : SessionM} (h : ReachableSession s) (op : Op) :
      ReachableSession (applyOp s op)

/-! ## Auxiliary definitions for the claims -/

/-- The value of `matchesParticipant` when it does not error. -/
def mpOk (e : SessionAccessEvaluator) (r : SessionRequirePolicy)
    (p : SessionAccessContext) : Bool :=
  match matchesParticipant e r p with
  | .ok b => b
  | .error _ => false

/-- A require policy is well formed when its filter parses and its
on-leave value is one of the two supported ones. -/
def wfPolicy (r : SessionRequirePolicy) : Prop :=
  (∃ fn, parseFilter r.filter = .ok fn) ∧ (r.onLeave = "terminate" ∨ r.onLeave = "pause")

/-- A host role carrying one require policy of count 1 (used for
concrete evaluations). -/
def hostRoleCount1 : Role :=
  { name := "host"
    version := "v5"
    requirePolicies := [{ filter := .litB true
                          kinds := ["ssh", "k8s"]
                          count := 1
                          onLeave := "terminate" }]
    joinPolicies := [] }

/-- A plain legacy (v1) role with no policies. -/
def legacyRole : Role :=
  { name := "old", version := "v1", requirePolicies := [], joinPolicies := [] }

/-- C2 input: an ssh evaluator whose single host role is named "host". -/
def c2Evaluator : SessionAccessEvaluator :=
  NewSessionAccessEvaluator
    [{ name := "host", version := "v5", requirePolicies := [], joinPolicies := [] }] sshKind

/-- C2 input: a join policy whose role pattern "ho*" glob-matches the
host role name "host". -/
def c2Allow : SessionJoinPolicy :=
  { roles := ["ho*"], kinds := ["ssh"], modes := ["peer"] }

/-- C3 input: v5 role with a require policy first, legacy v1 role second. -/
def c3Evaluator : SessionAccessEvaluator :=
  NewSessionAccessEvaluator [hostRoleCount1, legacyRole] sshKind

/-- C4 input: an ssh evaluator with a single require policy of count 0. -/
def c4Evaluator : SessionAccessEvaluator :=
  NewSessionAccessEvaluator
    [{ name := "host"
       version := "v5"
       requirePolicies := [{ filter := .litB true
                             kinds := ["ssh"]
                             count := 0
                             onLeave := "terminate" }]
       joinPolicies := [] }] sshKind

/-- C8 input: require policy of count 2 with an unsupported on_leave
value, placed before a valid policy of count 1. -/
def c8Evaluator : SessionAccessEvaluator :=
  NewSessionAccessEvaluator
    [{ name := "host"
       version := "v5"
       requirePolicies := [{ filter := .litB true
                             kinds := ["ssh"]
                             count := 2
                             onLeave := "bogus" },
                           { filter := .litB true
                             kinds := ["ssh"]
                             count := 1
                             onLeave := "terminate" }]
       joinPolicies := [] }] sshKind

/-- C8 input: a participant whose role may join "host" ssh sessions. -/
def c8Participant : SessionAccessContext :=
  { Username := "alice"
    Roles := [{ name := "pr"
                version := "v5"
                requirePolicies := []
                joinPolicies := [{ roles := ["host"], kinds := ["ssh"], modes := ["peer"] }] }] }

/-- C8 witness input: only the valid count-1 policy. -/
def c8WitnessEvaluator : SessionAccessEvaluator :=
  NewSessionAccessEvaluator
    [{ name := "host"
       version := "v5"
       requirePolicies := [{ filter := .litB true
                             kinds := ["ssh"]
                             count := 1
                             onLeave := "terminate" }]
       joinPolicies := [] }] sshKind

/-- C9 input: a stale record "g" listed before the requested id "x". -/
def c9Records : List (String × TrackerRec) :=
  [("g", { created := 0, expires := 10, state := .pending }),
   ("x", { created := 0, expires := 1000, state := .pending })]

/-- C9 witness input: a single fresh record. -/
def c9WitnessRecords : List (String × TrackerRec) :=
  [("y", { created := 0, expires := 1000, state := .pending })]

/-- The Boolean matching condition of the `removeSessionFromList` scan,
for stating which entry is removed. -/
def removeMatches (recs : List (String × TrackerRec)) (now : Nat) (sessionID : String)
    (id : String) : Bool :=
  decide (id = sessionID) ||
    (match lookupRec recs id with
     | some r => trackerDoGC r now || trackerIsStale r now
     | none => false)

/-- C5/C6/C7 input: the session initiator. -/
def wInitiator : PartyM := { id := 1, user := "alice", mode := "peer", roles := [] }

/-- C5 input: a joiner with a username different from the initiator's. -/
def wJoiner : PartyM := { id := 2, user := "mallory", mode := "peer", roles := [] }

/-- C5 input: a freshly created session. -/
def wSession : SessionM := initSession 41 wInitiator [] false

/-- C6 input: the leaving party. -/
def c6Party : PartyM := { id := 7, user := "bob", mode := "peer", roles := [] }

/-- C6 input: a running tty session with the initiator and one guest
party registered. -/
def c6Session : SessionM :=
  { sid := 42
    initiatorId := 1
    initiatorUser := "alice"
    hostRoles := []
    parties := [wInitiator, c6Party]
    partiesHistorical := [wInitiator, c6Party]
    readers := [1]
    writers := [1, 7]
    resizeQueues := [1, 7]
    state := .running
    started := true
    closedOnce := false
    tty := true }

/-- C6: the leave audit event the source constructs: an
`apievents.SessionLeave` payload whose `Metadata.Type` is
`events.SessionJoinEvent` (part_003:941). -/
def c6ExpectedEvent : AuditEvent :=
  { payloadShape := .sessionLeave
    eventType := .sessionJoin
    sessionId := 42
    user := "bob" }

/-! ## Helper lemmas -/

/-- For any non-ssh kind, `supportsSessionAccessControls` takes the final
`return false, nil`. -/
theorem supports_k8s (roles : List Role) :
    supportsSessionAccessControls (NewSessionAccessEvaluator roles kubernetesKind) = .ok false := by
  unfold supportsSessionAccessControls NewSessionAccessEvaluator
  simp [kubernetesKind, sshKind]

/-- For kubernetes evaluators, `FulfilledFor` always returns
`(true, {}, nil)` because the legacy fallback applies. -/
theorem fulfilledFor_k8sAux (roles : List Role) (ps : List SessionAccessContext) :
    FulfilledFor (NewSessionAccessEvaluator roles kubernetesKind) ps = .ok (true, ⟨false⟩) := by
  unfold FulfilledFor
  rw [supports_k8s]
  simp

/-- For kubernetes evaluators, `CanJoin` always returns the non-ssh
fallback mode list, which is empty. -/
theorem canJoin_k8sAux (roles : List Role) (ctx : SessionAccessContext) :
    CanJoin (NewSessionAccessEvaluator roles kubernetesKind) ctx = .ok [] := by
  unfold CanJoin
  rw [supports_k8s]
  simp [preAccessControlsModes, NewSessionAccessEvaluator, kubernetesKind, sshKind]

/-- `evalRequires` over the empty participant list never fulfils any
policy: the `left <= 0` check only runs inside the participant loop. -/
theorem evalRequires_nil_participants (e : SessionAccessEvaluator) :
    ∀ rs : List SessionRequirePolicy, evalRequires e [] rs = .ok (false, ⟨false⟩)
  | [] => rfl
  | r :: rs => by
    unfold evalRequires scanParticipants
    simpa using evalRequires_nil_participants e rs

/-! ## C1 -/

/-- C1: the claim says a kubernetes evaluator with require policies
proceeds to evaluate them and returns false when no policy's count is
met. In the source, `supportsSessionAccessControls` ends in
`return false, nil`, so every non-ssh evaluator (kubernetes included)
takes the legacy fallback and `FulfilledFor` returns `(true, {}, nil)`
unconditionally — contradicting the function's own comment that the
fallback is not needed for kubernetes. This theorem evaluates the code:
for EVERY kubernetes evaluator and participant list (in particular one
holding a require policy of count 1 applied to zero participants, where
the claim demands `(false, {}, nil)`), the result is `(true, {}, nil)`. -/
theorem fulfilledFor_kubernetes_always_true (roles : List Role)
    (ps : List SessionAccessContext) :
    FulfilledFor (NewSessionAccessEvaluator roles kubernetesKind) ps = .ok (true, ⟨false⟩) :=
  fulfilledFor_k8sAux roles ps

/-! ## C2 -/

/-- C2: the claim says `matchesJoin` holds iff some pattern in
`allow.roles` glob-matches some host role name. The source swaps pattern
and subject: it compiles the host role NAME as the glob and matches the
`allow.roles` entry against it. With host role "host" and pattern "ho*"
(kinds matching), the spec's reading (`specMatchesJoinRoles`) is true but
the source's `matchesJoin` is false. -/
theorem matchesJoin_direction_swapped :
    specMatchesJoinRoles c2Evaluator c2Allow = true ∧
    matchesJoin c2Evaluator c2Allow = false := by
  constructor
  · decide
  · decide

/-! ## C3 -/

/-- C3 counterexample: an ssh host role set containing a legacy v1 role
in second position (after a v5 role carrying a require policy of
count 1). The claim demands `(true, {}, nil)` for every participant
list, but with no participants `FulfilledFor` returns `(false, {}, nil)`:
the version gate only looks at the FIRST role, which is v5. -/
theorem fulfilledFor_legacy_any_position_ctrex :
    (c3Evaluator.roles.any fun r => r.version = "v1") = true ∧
    FulfilledFor c3Evaluator [] = .ok (false, ⟨false⟩) := by
  constructor
  · decide
  · decide

/-- C3 amended: if `kind = ssh` and the FIRST host role is of legacy
version v1..v4, `FulfilledFor` returns `(true, {}, nil)` regardless of
participants (the loop in `supportsSessionAccessControls` returns on its
first iteration). -/
theorem fulfilledFor_legacy_first_role (roles : List Role) (r : Role)
    (ps : List SessionAccessContext)
    (hhead : roles.head? = some r)
    (hleg : r.version = "v1" ∨ r.version = "v2" ∨ r.version = "v3" ∨ r.version = "v4") :
    FulfilledFor (NewSessionAccessEvaluator roles sshKind) ps = .ok (true, ⟨false⟩) := by
  cases roles with
  | nil => simp at hhead
  | cons a tl =>
    simp only [List.head?_cons, Option.some.injEq] at hhead
    subst hhead
    unfold FulfilledFor supportsSessionAccessControls NewSessionAccessEvaluator
    simp [hleg]

/-- C3 amended, witness: legacy v1 role first, v5 role with a require
policy second, no participants. -/
theorem fulfilledFor_legacy_first_role_witness :
    FulfilledFor (NewSessionAccessEvaluator [legacyRole, hostRoleCount1] sshKind) [] =
      .ok (true, ⟨false⟩) :=
  fulfilledFor_legacy_first_role [legacyRole, hostRoleCount1] legacyRole [] rfl (Or.inl rfl)

/-! ## C4 -/

/-- C4 counterexample: an ssh evaluator (v5 role, controls supported)
holding a require policy with `count = 0`; on the EMPTY participant list
`FulfilledFor` returns `(false, {}, nil)`, not fulfilled: the
`left <= 0` check only runs per scanned participant, so no participants
means no policy is ever checked off. -/
theorem fulfilledFor_count_zero_empty_ctrex :
    (c4Evaluator.requires.any fun r => r.count = 0) = true ∧
    FulfilledFor c4Evaluator [] = .ok (false, ⟨false⟩) := by
  constructor
  · decide
  · decide

/-- C4 amended: for every evaluator that supports access controls and
holds at least one require policy, `FulfilledFor` of the EMPTY
participant list returns `(false, {}, nil)` — even when some require
policy has `count = 0` (a count-0 policy is only checked off once at
least one participant is scanned). -/
theorem fulfilledFor_empty_participants (e : SessionAccessEvaluator)
    (hsupp : supportsSessionAccessControls e = .ok true)
    (hne : e.requires ≠ []) :
    FulfilledFor e [] = .ok (false, ⟨false⟩) := by
  unfold FulfilledFor
  rw [hsupp]
  have : e.requires.isEmpty = false := by
    cases h : e.requires with
    | nil => exact absurd h hne
    | cons a tl => rfl
  rw [this]
  simpa using evalRequires_nil_participants e e.requires

/-- C4 amended, witness: the count-0 evaluator supports controls, has a
require policy, and is not fulfilled by the empty participant list. -/
theorem fulfilledFor_empty_participants_witness :
    FulfilledFor c4Evaluator [] = .ok (false, ⟨false⟩) :=
  fulfilledFor_empty_participants c4Evaluator (by decide) (by decide)

/-! ## C9 -/

/-- C9 counterexample: the list holds a stale entry "g" (expired at 10,
now = 100) before the requested id "x". The claim demands a full GC
pass — result `[]` with both the stale entry and the requested id
dropped — but the scan `break`s at the first matching entry, so only "g"
is removed and the requested "x" stays in the list. -/
theorem removeSession_gc_single_ctrex :
    trackerIsStale { created := 0, expires := 10, state := .pending } 100 = true ∧
    removeSessionFromList c9Records 100 "x" ["g", "x"] = .ok ["x"] := by
  constructor
  · decide
  · decide

/-- C9 amended: `removeSessionFromList` removes exactly the FIRST entry
that is the requested id, GC-eligible, or stale, and stops scanning:
every entry before it is kept, and everything after it (the requested id
or further garbage included) is kept untouched. -/
theorem removeSession_first_match_only (recs : List (String × TrackerRec)) (now : Nat)
    (sid : String) (l1 : List String) (id : String) (l2 : List String)
    (hrec : ∀ i ∈ l1 ++ id :: l2, (lookupRec recs i).isSome = true)
    (hnomatch : ∀ i ∈ l1, removeMatches recs now sid i = false)
    (hmatch : removeMatches recs now sid id = true) :
    removeSessionFromList recs now sid (l1 ++ id :: l2) = .ok (l1 ++ l2) := by
  unfold removeSessionFromList
  induction l1 with
  | nil =>
    have hid : (lookupRec recs id).isSome = true := hrec id (by simp)
    obtain ⟨r, hr⟩ := Option.isSome_iff_exists.mp hid
    have hm : id = sid ∨ trackerDoGC r now = true ∨ trackerIsStale r now = true := by
      unfold removeMatches at hmatch
      rw [hr] at hmatch
      simpa using hmatch
    simp only [List.nil_append]
    unfold removeSessionLoop
    simp only [hr]
    rw [if_pos hm]
  | cons a l1 ih =>
    have ha : (lookupRec recs a).isSome = true := hrec a (by simp)
    obtain ⟨r, hr⟩ := Option.isSome_iff_exists.mp ha
    have hano : removeMatches recs now sid a = false := hnomatch a (by simp)
    unfold removeMatches at hano
    rw [hr] at hano
    simp only [Bool.or_eq_false_iff, decide_eq_false_iff_not] at hano
    have hneg : ¬(a = sid ∨ trackerDoGC r now = true ∨ trackerIsStale r now = true) := by
      rintro (h | h | h)
      · exact hano.1 h
      · rw [hano.2.1] at h; cases h
      · rw [hano.2.2] at h; cases h
    have hstep := ih (fun i hi => hrec i (by simp [hi]))
      (fun i hi => hnomatch i (by simp [hi]))
    simp only [List.cons_append]
    unfold removeSessionLoop
    simp only [hr]
    rw [if_neg hneg, hstep]
    rfl

/-- C9 amended, witness: a one-element list holding the requested id. -/
theorem removeSession_first_match_only_witness :
    removeSessionFromList c9WitnessRecords 100 "y" ["y"] = .ok [] := by
  have h := removeSession_first_match_only c9WitnessRecords 100 "y" [] "y" []
    (by decide) (by intro i hi; cases hi) (by decide)
  simpa using h

/-! ## C10 -/

/-- C10: in `canStart`, every non-initiator party is passed to
`FulfilledFor` (via `canStartM`, which applies the evaluator to
`canStartContexts`) as a `SessionAccessContext` with only `Roles`
populated: each such party contributes a context, and every contributed
context has `Username = ""`, so `GetIdentifier` resolves
`participant.name` to the empty string for any require-policy filter
over it. -/
theorem canStart_contexts_empty_username (u : String) (ps : List PartyM) :
    (∀ q ∈ ps, q.user ≠ u →
      ({ Username := "", Roles := q.roles } : SessionAccessContext) ∈ canStartContexts u ps) ∧
    ∀ ctx ∈ canStartContexts u ps,
      ctx.Username = "" ∧ GetIdentifier ctx ["participant", "name"] = .ok (.str "") := by
  constructor
  · intro q hq hne
    unfold canStartContexts
    exact List.mem_map_of_mem _ (List.mem_filter.mpr ⟨hq, by simpa using hne⟩)
  · intro ctx hctx
    unfold canStartContexts at hctx
    rw [List.mem_map] at hctx
    obtain ⟨q, hq, rfl⟩ := hctx
    exact ⟨rfl, rfl⟩

/-- C10 witness: a single non-initiator party. -/
theorem canStart_contexts_empty_username_witness :
    GetIdentifier { Username := "", Roles := [] } ["participant", "name"] = .ok (.str "") :=
  ((canStart_contexts_empty_username "alice" [wJoiner]).2
    { Username := "", Roles := [] } (by decide)).2

/-! ## C5 -/

/-- `canStartM` on any modelled session: the evaluator was constructed
with kind kubernetes, so `FulfilledFor` always reports fulfilled. -/
theorem canStartM_k8s (s : SessionM) : canStartM s = .ok (true, ⟨false⟩) :=
  fulfilledFor_k8sAux s.hostRoles (canStartContexts s.initiatorUser s.parties)

/-- `CanJoin` through a session's evaluator is always the empty mode
list (kubernetes fallback). -/
theorem canJoin_session (s : SessionM) (ctx : SessionAccessContext) :
    CanJoin (sessionEvaluator s) ctx = .ok [] :=
  canJoin_k8sAux s.hostRoles ctx

/-- The registration phase of `join` never produces an AccessDenied
error: its only AccessDenied return (non-interactive session that cannot
start) is dead because `canStartM` always reports fulfilled. -/
theorem joinRegister_not_denied (s : SessionM) (p : PartyM) (f : JoinFaults) (m : String) :
    (joinRegister s p f).1 ≠ .error (.accessDenied m) := by
  unfold joinRegister
  simp only [canStartM_k8s]
  split_ifs <;> simp

/-- C5: whenever `join` returns an AccessDenied error the session is
unchanged — same live and historical rosters, same reader/writer/resize
registrations, same state. The only reachable AccessDenied return is the
mode check against `CanJoin`, which happens before any mutation; the
later AccessDenied return (non-interactive, cannot start) is unreachable
because the session's evaluator is built with kind kubernetes, for which
`FulfilledFor` always reports fulfilled. -/
theorem join_access_denied_unchanged (s : SessionM) (p : PartyM) (f : JoinFaults) (m : String)
    (h : (joinSession s p f).1 = .error (.accessDenied m)) :
    (joinSession s p f).2 = s := by
  unfold joinSession at h ⊢
  by_cases hu : p.user = s.initiatorUser
  · rw [if_pos hu] at h
    exact absurd h (joinRegister_not_denied s p f m)
  · rw [if_neg hu] at h ⊢
    rw [canJoin_session] at h ⊢
    simp only [List.contains_nil, Bool.false_eq_true, if_false] at h ⊢

/-- C5 witness: a joiner with a different username is denied (the kube
`CanJoin` fallback returns no modes) and the session is unchanged. -/
theorem join_access_denied_unchanged_witness :
    (joinSession wSession wJoiner ⟨false, false⟩).2 = wSession :=
  join_access_denied_unchanged wSession wJoiner ⟨false, false⟩
    "insufficient permissions to join session" (by decide)

/-! ## C6 -/

/-- C6: leaving a live party of a non-terminated session removes it from
the live roster (keeping the historical roster), deregisters its reader,
writer and resize channel, broadcasts that the user left, and only then
emits exactly one audit event carrying the session id and the leaving
user — but the event's `Metadata.Type`/`Code` are filled with the
SessionJoin constants (`events.SessionJoinEvent`, part_003:941-942) even
though the payload struct is `apievents.SessionLeave`, so the emitted
type does NOT identify it as SessionLeave. -/
theorem leave_emits_join_typed_event :
    (leaveSession c6Session 7).2.1.parties = [wInitiator] ∧
    (leaveSession c6Session 7).2.1.partiesHistorical = [wInitiator, c6Party] ∧
    (leaveSession c6Session 7).2.1.readers = [1] ∧
    (leaveSession c6Session 7).2.1.writers = [1] ∧
    (leaveSession c6Session 7).2.1.resizeQueues = [1] ∧
    (leaveSession c6Session 7).2.2 =
      [SessAction.broadcast "User bob left the session.",
       SessAction.emit c6ExpectedEvent,
       SessAction.trackerRemove 7,
       SessAction.partyClose 7] ∧
    c6ExpectedEvent.payloadShape = .sessionLeave ∧
    c6ExpectedEvent.eventType = .sessionJoin ∧
    c6ExpectedEvent.eventType ≠ .sessionLeave ∧
    c6ExpectedEvent.sessionId = 42 ∧
    c6ExpectedEvent.user = "bob" := by
  refine ⟨?_, ?_, ?_, ?_, ?_, ?_, rfl, rfl, by decide, rfl, rfl⟩
  · decide
  · decide
  · decide
  · decide
  · decide
  · decide

/-! ## C7 -/

/-- When the session is not Pending, `join` returns after registration
without touching the state field (part_003:888-890). -/
theorem joinRegister_state_nonpending (s : SessionM) (p : PartyM) (f : JoinFaults)
    (h : s.state ≠ .pending) :
    ((joinRegister s p f).2).state = s.state := by
  unfold joinRegister
  simp only [canStartM_k8s]
  split_ifs <;> simp_all

/-- `join` on a non-Pending session leaves the state field unchanged. -/
theorem joinSession_state_nonpending (s : SessionM) (p : PartyM) (f : JoinFaults)
    (h : s.state ≠ .pending) :
    ((joinSession s p f).2).state = s.state := by
  unfold joinSession
  by_cases hu : p.user = s.initiatorUser
  · rw [if_pos hu]
    exact joinRegister_state_nonpending s p f h
  · rw [if_neg hu, canJoin_session]
    rfl

/-- `leave` on a Terminated session is a no-op (part_003:922-924). -/
theorem leaveSession_terminated_noop (s : SessionM) (pid : Nat)
    (h : s.state = .terminated) :
    (leaveSession s pid).2.1 = s := by
  unfold leaveSession
  rw [if_pos h]

/-- `Close` always ends with the session Terminated: either the
`closeOnce` body runs and sets it, or it already ran (and the state can
only have been set to Terminated by it). -/
theorem closeSession_state (s : SessionM) (h : s.state = .terminated) :
    (closeSession s).state = .terminated := by
  unfold closeSession
  split_ifs
  · exact h
  · rfl

/-- C7: Terminated is absorbing. For every session whose state is
Terminated, every join, leave, launch, or Close invocation leaves the
state equal to Terminated: `leave` returns immediately on a terminated
session, `join` only moves the state from Pending, `launch` never
assigns the state field, and `Close` either re-runs as a no-op (its body
is guarded by `closeOnce`) or sets Terminated again. -/
theorem terminated_is_absorbing (s : SessionM) (op : Op)
    (hterm : s.state = .terminated) :
    (applyOp s op).state = .terminated := by
  cases op with
  | opJoin p f =>
    rw [applyOp, joinSession_state_nonpending s p f (by rw [hterm]; intro hc; cases hc)]
    exact hterm
  | opLeave pid =>
    rw [applyOp, leaveSession_terminated_noop s pid hterm]
    exact hterm
  | opLaunch => exact hterm
  | opClose => exact closeSession_state s hterm

/-- C7 witness: closing a fresh session terminates it; a subsequent
leave keeps it Terminated. -/
theorem terminated_is_absorbing_witness :
    (applyOp (closeSession (initSession 0 wInitiator [] false)) (.opLeave 0)).state =
      .terminated :=
  terminated_is_absorbing (closeSession (initSession 0 wInitiator [] false))
    (.opLeave 0) (by decide)

/-! ## C8 -/

/-- Reduction of an `Except` bind on an ok value. -/
theorem exceptBind_ok {α β : Type} (a : α) (f : α → Except Err β) :
    (Except.ok a >>= f : Except Err β) = f a := rfl

/-- Under a parsing filter, `matchesPredicate` never errors. -/
theorem matchesPredicate_isOk (e : SessionAccessEvaluator) (ctx : SessionAccessContext)
    (r : SessionRequirePolicy) (allow : SessionJoinPolicy)
    (hf : ∃ fn, parseFilter r.filter = .ok fn) :
    ∃ b, matchesPredicate e ctx r allow = .ok b := by
  obtain ⟨fn, hfn⟩ := hf
  unfold matchesPredicate
  split_ifs
  · exact ⟨false, rfl⟩
  · refine ⟨fn ctx, ?_⟩
    rw [hfn]
    rfl

/-- Under a parsing filter, the allow-policy loop never errors. -/
theorem matchesParticipantGo_isOk (e : SessionAccessEvaluator) (r : SessionRequirePolicy)
    (p : SessionAccessContext) (hf : ∃ fn, parseFilter r.filter = .ok fn) :
    ∀ l : List SessionJoinPolicy, ∃ b, matchesParticipantGo e r p l = .ok b := by
  intro l
  induction l with
  | nil => exact ⟨false, rfl⟩
  | cons allow rest ih =>
    obtain ⟨b, hb⟩ := matchesPredicate_isOk e p r allow hf
    obtain ⟨b2, hb2⟩ := ih
    unfold matchesParticipantGo
    rw [hb, exceptBind_ok]
    by_cases hmb : (b && matchesJoin e allow) = true
    · exact ⟨true, by rw [if_pos hmb]⟩
    · exact ⟨b2, by rw [if_neg hmb, hb2]⟩

/-- Under a parsing filter, `matchesParticipant` computes `mpOk`. -/
theorem matchesParticipant_eq_mpOk (e : SessionAccessEvaluator) (r : SessionRequirePolicy)
    (p : SessionAccessContext) (hf : ∃ fn, parseFilter r.filter = .ok fn) :
    matchesParticipant e r p = .ok (mpOk e r p) := by
  obtain ⟨b, hb⟩ := matchesParticipantGo_isOk e r p hf (getAllowPolicies p)
  have hmp : matchesParticipant e r p = .ok b := hb
  rw [hmp]
  unfold mpOk
  rw [hmp]

/-- A well-formed on-leave value translates without error, to terminate
iff it says "terminate". -/
theorem onLeaveOptions_wf (r : SessionRequirePolicy)
    (hol : r.onLeave = "terminate" ∨ r.onLeave = "pause") :
    onLeaveOptions r = .ok ⟨decide (r.onLeave = "terminate")⟩ := by
  rcases hol with h | h <;> unfold onLeaveOptions <;> rw [h] <;> simp

/-- Characterization of the per-policy participant scan for a
well-formed policy: it never errors, and it reports fulfilled exactly
when the participant list is non-empty and the number of matching
participants reaches the count. -/
theorem scanParticipants_char (e : SessionAccessEvaluator) (r : SessionRequirePolicy)
    (hf : ∃ fn, parseFilter r.filter = .ok fn)
    (hol : r.onLeave = "terminate" ∨ r.onLeave = "pause") :
    ∀ (ps : List SessionAccessContext) (left : Int),
      scanParticipants e r left ps =
        .ok (if ps ≠ [] ∧ left ≤ (ps.countP (mpOk e r) : Int)
             then some ⟨decide (r.onLeave = "terminate")⟩ else none) := by
  intro ps
  induction ps with
  | nil =>
    intro left
    simp [scanParticipants]
  | cons p ps ih =>
    intro left
    have hred : scanParticipants e r left (p :: ps) =
        (if (if mpOk e r p = true then left - 1 else left) ≤ 0 then
          (do
            let opts ← onLeaveOptions r
            Except.ok (some opts))
        else scanParticipants e r (if mpOk e r p = true then left - 1 else left) ps) := by
      conv_lhs => rw [scanParticipants]
      rw [matchesParticipant_eq_mpOk e r p hf, exceptBind_ok]
    rw [hred]
    rcases hm : mpOk e r p with _ | _
    · have hcnt : (((p :: ps).countP (mpOk e r) : Int)) = (ps.countP (mpOk e r) : Int) := by
        rw [List.countP_cons, hm]
        simp
      simp only [Bool.false_eq_true, if_false]
      by_cases hle : left ≤ 0
      · rw [if_pos hle, onLeaveOptions_wf r hol, exceptBind_ok, if_pos]
        refine ⟨by simp, ?_⟩
        rw [hcnt]
        have : (0 : Int) ≤ (ps.countP (mpOk e r) : Int) := Int.ofNat_nonneg _
        omega
      · rw [if_neg hle, ih left]
        by_cases h1 : ps ≠ [] ∧ left ≤ (ps.countP (mpOk e r) : Int)
        · rw [if_pos h1, if_pos ⟨by simp, by rw [hcnt]; exact h1.2⟩]
        · rw [if_neg h1, if_neg]
          rintro ⟨-, h2⟩
          rw [hcnt] at h2
          refine h1 ⟨?_, h2⟩
          intro hnil
          rw [hnil] at h2
          simp at h2
          omega
    · have hcnt : (((p :: ps).countP (mpOk e r) : Int)) =
          (ps.countP (mpOk e r) : Int) + 1 := by
        rw [List.countP_cons, hm]
        simp
      simp only [eq_self_iff_true, if_true]
      by_cases hle : left - 1 ≤ 0
      · rw [if_pos hle, onLeaveOptions_wf r hol, exceptBind_ok, if_pos]
        refine ⟨by simp, ?_⟩
        rw [hcnt]
        have : (0 : Int) ≤ (ps.countP (mpOk e r) : Int) := Int.ofNat_nonneg _
        omega
      · rw [if_neg hle, ih (left - 1)]
        by_cases h1 : ps ≠ [] ∧ left - 1 ≤ (ps.countP (mpOk e r) : Int)
        · rw [if_pos h1, if_pos ⟨by simp, by rw [hcnt]; have := h1.2; omega⟩]
        · rw [if_neg h1, if_neg]
          rintro ⟨-, h2⟩
          rw [hcnt] at h2
          refine h1 ⟨?_, by omega⟩
          intro hnil
          rw [hnil] at h2
          simp at h2
          omega

/-- `countP` is monotone under sub-permutation. -/
theorem countP_subperm_le {α : Type} (p : α → Bool) {l1 l2 : List α}
    (h : l1.Subperm l2) : l1.countP p ≤ l2.countP p := by
  obtain ⟨l, hperm, hsub⟩ := h
  calc l1.countP p = l.countP p := (hperm.countP_eq p).symm
    _ ≤ l2.countP p := hsub.countP_le p

/-- The require-policy loop is monotone in the participants for
well-formed policies: a fulfilled outcome stays fulfilled on any
super-(multi)set of the participants. -/
theorem evalRequires_monotone (e : SessionAccessEvaluator)
    {S Sp : List SessionAccessContext} (hsub : S.Subperm Sp) :
    ∀ rs : List SessionRequirePolicy, (∀ r ∈ rs, wfPolicy r) →
      ∀ opts, evalRequires e S rs = .ok (true, opts) →
        ∃ opts2, evalRequires e Sp rs = .ok (true, opts2) := by
  intro rs
  induction rs with
  | nil =>
    intro _ opts h
    simp [evalRequires] at h
  | cons r rs ih =>
    intro hwf opts h
    have hr := hwf r (by simp)
    have hscanS := scanParticipants_char e r hr.1 hr.2 S r.count
    have hscanSp := scanParticipants_char e r hr.1 hr.2 Sp r.count
    unfold evalRequires at h ⊢
    rw [hscanS, exceptBind_ok] at h
    rw [hscanSp, exceptBind_ok]
    by_cases hc : S ≠ [] ∧ r.count ≤ (S.countP (mpOk e r) : Int)
    · have hcp : Sp ≠ [] ∧ r.count ≤ (Sp.countP (mpOk e r) : Int) := by
        constructor
        · intro hnil
          rw [hnil] at hsub
          have := hsub.length_le
          simp at this
          exact hc.1 this
        · refine le_trans hc.2 ?_
          exact_mod_cast countP_subperm_le (mpOk e r) hsub
      rw [if_pos hc] at h
      rw [if_pos hcp]
      exact ⟨⟨decide (r.onLeave = "terminate")⟩, rfl⟩
    · rw [if_neg hc] at h
      obtain ⟨opts2, h2⟩ := ih (fun q hq => hwf q (by simp [hq])) opts h
      by_cases hcp : Sp ≠ [] ∧ r.count ≤ (Sp.countP (mpOk e r) : Int)
      · rw [if_pos hcp]
        exact ⟨⟨decide (r.onLeave = "terminate")⟩, rfl⟩
      · rw [if_neg hcp]
        exact ⟨opts2, h2⟩

/-- C8 counterexample: the evaluator holds a count-2 require policy with
an unsupported on_leave value before a valid count-1 policy, and the
participant matches both. The single participant fulfils the count-1
policy, so `FulfilledFor` returns true; doubling the participant (a
superset, in any order) makes the count-2 policy reach its count FIRST,
and its bad on_leave value turns the whole call into a BadParameter
error instead of true. -/
theorem fulfilledFor_monotone_ctrex :
    FulfilledFor c8Evaluator [c8Participant] = .ok (true, ⟨true⟩) ∧
    List.Subperm [c8Participant] [c8Participant, c8Participant] ∧
    FulfilledFor c8Evaluator [c8Participant, c8Participant] =
      .error (.badParameter "unsupported on_leave policy: bogus") := by
  exact ⟨by decide, List.Subperm.cons_self, by decide⟩

/-- C8 amended: `FulfilledFor` is monotone in the participant list
PROVIDED every require policy is well formed (its filter parses and its
on_leave is terminate or pause): if it returns true on S, it returns
true on every list containing all of S's participants (with
multiplicity, in any order). Without well-formedness the property fails:
an extra participant can push a previously unfulfilled malformed policy
to its count and surface an error (see the counterexample). -/
theorem fulfilledFor_monotone_wf (e : SessionAccessEvaluator)
    (S Sp : List SessionAccessContext) (opts : PolicyOptions)
    (hwf : ∀ r ∈ e.requires, wfPolicy r)
    (h : FulfilledFor e S = .ok (true, opts))
    (hsub : S.Subperm Sp) :
    ∃ opts2, FulfilledFor e Sp = .ok (true, opts2) := by
  unfold FulfilledFor at h ⊢
  cases hs : supportsSessionAccessControls e with
  | error err =>
    rw [hs] at h
    cases h
  | ok supported =>
    simp only [hs] at h ⊢
    by_cases hreq : (e.requires.isEmpty || !supported) = true
    · rw [if_pos hreq] at h ⊢
      exact ⟨⟨false⟩, rfl⟩
    · rw [if_neg hreq] at h ⊢
      exact evalRequires_monotone e hsub e.requires hwf opts h

/-- C8 amended, witness: a well-formed count-1 evaluator fulfilled by
one participant stays fulfilled when the participant is doubled. -/
theorem fulfilledFor_monotone_wf_witness :
    ∃ opts2, FulfilledFor c8WitnessEvaluator [c8Participant, c8Participant] =
      .ok (true, opts2) := by
  refine fulfilledFor_monotone_wf c8WitnessEvaluator [c8Participant]
    [c8Participant, c8Participant] ⟨true⟩ ?_ (by decide)
    List.Subperm.cons_self
  intro r hr
  simp only [c8WitnessEvaluator, NewSessionAccessEvaluator, getRequirePolicies] at hr
  simp at hr
  subst hr
  exact ⟨⟨fun _ => true, rfl⟩, Or.inl rfl⟩
